import Mathlib

/-!
Verification of the llmcloud resource reconciliation engine.

The definitions below are a shallow embedding of the Go operator code:
the `v1alpha1` resource types, the image lookup table (`GetImageForOS`,
`splitImageTag`), the VirtualMachine reconciler (`Reconcile`,
`buildKubeVirtVM`, `updateVMStatusFromVMI`, `finalizeVM`, `rebootVM`) and
the Project reconciler (`ProjectReconcile`, `reconcileNamespace`,
`reconcileRBAC`, `getRoleForMember`).  Store state is modeled explicitly
as a world record; fallible store operations are modeled by an operation
oracle supplying the outcome of each write.
-/

namespace LLMCloud

/-- A Kubernetes store error, as distinguished by the operator code via
`errors.IsNotFound` and `errors.IsConflict`. -/
inductive StoreError where
  | notFound
  | conflict
  | other (msg : String)
deriving DecidableEq, Repr

/-- The message text carried by a store error (used by `updateVMStatus`). -/
def StoreError.message : StoreError → String
  | .notFound => "not found"
  | .conflict => "conflict"
  | .other m => m

/-- A `metav1.Condition`: type, boolean status, reason, message, observed
generation and last transition time. -/
structure Condition where
  type : String
  status : Bool
  reason : String
  message : String
  observedGeneration : Int
  lastTransitionTime : Int
deriving DecidableEq, Repr

/-- `meta.SetStatusCondition`: replace the condition with the same type,
keeping its last transition time when the boolean status is unchanged,
stamping `now` otherwise; append when no condition of that type exists. -/
def setStatusCondition (now : Int) (newc : Condition) : List Condition → List Condition
  | [] => [{ newc with lastTransitionTime := now }]
  | c :: rest =>
    if c.type = newc.type then
      (if c.status = newc.status then { newc with lastTransitionTime := c.lastTransitionTime }
       else { newc with lastTransitionTime := now }) :: rest
    else c :: setStatusCondition now newc rest

/-- Find the condition with the given type (`meta.FindStatusCondition`). -/
def findCondition (t : String) : List Condition → Option Condition
  | [] => none
  | c :: rest => if c.type = t then some c else findCondition t rest

/-- The object metadata the reconcilers read and write: name, namespace,
whether a deletion timestamp is set, finalizers, annotation map and
generation. -/
structure ObjectMeta where
  name : String
  ns : String
  deletionTimestampSet : Bool
  finalizers : List String
  annots : List (String × String)
  generation : Int
deriving DecidableEq, Repr

/-- `controllerutil.AddFinalizer`: append the token when absent. -/
def addFinalizer (m : ObjectMeta) (f : String) : ObjectMeta :=
  if f ∈ m.finalizers then m else { m with finalizers := m.finalizers ++ [f] }

/-- `controllerutil.RemoveFinalizer`: drop every occurrence of the token. -/
def removeFinalizer (m : ObjectMeta) (f : String) : ObjectMeta :=
  { m with finalizers := m.finalizers.filter (fun g => ¬ g = f) }

/-- `delete(vm.Annotations, key)`. -/
def removeAnnot (m : ObjectMeta) (k : String) : ObjectMeta :=
  { m with annots := m.annots.filter (fun kv => ¬ kv.1 = k) }

/-! ### VirtualMachine resource types (api/v1alpha1) -/

/-- `VirtualMachineSpec`. -/
structure VirtualMachineSpec where
  cpus : Int
  memory : String
  diskSize : String
  os : String
  osVersion : String
  cloudInit : String
  sshKeys : List String
  runStrategy : String
  storageClass : String
deriving DecidableEq, Repr

/-- `VirtualMachineStatus`. -/
structure VirtualMachineStatus where
  phase : String
  node : String
  ipAddress : String
  ready : Bool
  conditions : List Condition
deriving DecidableEq, Repr

/-- The `VirtualMachine` custom resource. -/
structure VirtualMachine where
  meta : ObjectMeta
  spec : VirtualMachineSpec
  status : VirtualMachineStatus
deriving DecidableEq, Repr

/-- Phase constant `PhasePending`. -/
def PhasePending : String := "Pending"

/-- Phase constant `PhaseRunning`. -/
def PhaseRunning : String := "Running"

/-! ### OS image lookup (api/v1alpha1) -/

/-- `OSImageMap`: OS types to container disk images. -/
def OSImageMap : List (String × String) :=
  [("ubuntu", "quay.io/containerdisks/ubuntu:22.04"),
   ("fedora", "quay.io/containerdisks/fedora:39"),
   ("debian", "quay.io/containerdisks/debian:12"),
   ("centos", "quay.io/containerdisks/centos-stream:9"),
   ("alpine", "quay.io/containerdisks/alpine:3.19"),
   ("cirros", "quay.io/kubevirt/cirros-container-disk-demo:latest"),
   ("freebsd", "quay.io/containerdisks/freebsd:13.2")]

/-- Index of the last `':'` in a character list, if any. -/
def lastColonIdx : List Char → Option Nat
  | [] => none
  | c :: rest =>
    match lastColonIdx rest with
    | some i => some (i + 1)
    | none => if c = ':' then some 0 else none

/-- `splitImageTag`: split an image reference into repository and tag at the
last `':'`; a colon at index 0 or no colon yields the whole string and
`"latest"`. -/
def splitImageTag (image : String) : String × String :=
  match lastColonIdx image.data with
  | some idx =>
    if idx > 0 then (⟨image.data.take idx⟩, ⟨image.data.drop (idx + 1)⟩)
    else (image, "latest")
  | none => (image, "latest")

/-- The default-image section of `GetImageForOS`: the table entry for the
OS, falling back to the cirros entry when the OS is unknown. -/
def defaultImageForOS (os : String) : String :=
  match OSImageMap.lookup os with
  | some img => img
  | none => (OSImageMap.lookup "cirros").getD ""

/-- `GetImageForOS`: with a version, try the versioned key, then retag the
OS's base image with the requested version; otherwise (or for an unknown
OS) use the default-image section. -/
def GetImageForOS (os version : String) : String :=
  if version ≠ "" then
    match OSImageMap.lookup (os ++ ":" ++ version) with
    | some img => img
    | none =>
      let baseImage := (OSImageMap.lookup os).getD ""
      if baseImage ≠ "" then (splitImageTag baseImage).1 ++ ":" ++ version
      else defaultImageForOS os
  else defaultImageForOS os

/-! ### The built KubeVirt VirtualMachine object -/

/-- A volume source in the built KubeVirt object. -/
inductive KVVolumeSource where
  | containerDisk (image : String)
  | dataVolume (name : String)
  | cloudInitNoCloud (userData : String)
deriving DecidableEq, Repr

/-- A disk entry in the built KubeVirt object. -/
structure KVDisk where
  name : String
  bus : String
deriving DecidableEq, Repr

/-- A volume entry in the built KubeVirt object. -/
structure KVVolume where
  name : String
  source : KVVolumeSource
deriving DecidableEq, Repr

/-- The fields of the unstructured KubeVirt `VirtualMachine` document that
`buildKubeVirtVM` populates. -/
structure KubeVirtVM where
  name : String
  ns : String
  labels : List (String × String)
  runStrategy : String
  dvName : String
  dvSize : String
  dvStorageClass : String
  cpuCores : Int
  memory : String
  disks : List KVDisk
  volumes : List KVVolume
deriving DecidableEq, Repr

/-- The cloud-init user data used by `buildKubeVirtVM`: the spec's
document, or a minimal document rendering the SSH keys when no document is
given and keys are present. -/
def cloudInitUserData (spec : VirtualMachineSpec) : String :=
  if spec.cloudInit = "" ∧ spec.sshKeys.length > 0 then
    "#cloud-config\nssh_authorized_keys:\n" ++ String.intercalate "\n" spec.sshKeys
  else spec.cloudInit

/-- `buildKubeVirtVM`: the desired KubeVirt object, a pure function of the
VirtualMachine's metadata and spec. -/
def buildKubeVirtVM (vm : VirtualMachine) : KubeVirtVM :=
  let runStrategy := if vm.spec.runStrategy = "" then "Always" else vm.spec.runStrategy
  let userData := cloudInitUserData vm.spec
  let disks : List KVDisk :=
    [⟨"containerdisk", "virtio"⟩, ⟨"datadisk", "virtio"⟩]
  let volumes : List KVVolume :=
    [⟨"containerdisk", .containerDisk (GetImageForOS vm.spec.os vm.spec.osVersion)⟩,
     ⟨"datadisk", .dataVolume (vm.meta.name ++ "-disk")⟩]
  let disks := if userData ≠ "" then disks ++ [⟨"cloudinitdisk", "virtio"⟩] else disks
  let volumes :=
    if userData ≠ "" then volumes ++ [⟨"cloudinitdisk", .cloudInitNoCloud userData⟩]
    else volumes
  let diskSize := if vm.spec.diskSize = "" then "10Gi" else vm.spec.diskSize
  let storageClass := if vm.spec.storageClass = "" then "local-path" else vm.spec.storageClass
  { name := vm.meta.name
    ns := vm.meta.ns
    labels := [("llmcloud.io/managed", "true")]
    runStrategy := runStrategy
    dvName := vm.meta.name ++ "-disk"
    dvSize := diskSize
    dvStorageClass := storageClass
    cpuCores := vm.spec.cpus
    memory := vm.spec.memory
    disks := disks
    volumes := volumes }

/-! ### VirtualMachineInstance observed state -/

/-- One entry of the VMI's `status.interfaces` list; `ipAddress` may be
absent. -/
structure VMIInterface where
  ipAddress : Option String
deriving DecidableEq, Repr

/-- The fields of the KubeVirt `VirtualMachineInstance` status that
`updateVMStatusFromVMI` reads; each top-level field may be absent. -/
structure VMIStatus where
  phase : Option String
  nodeName : Option String
  interfaces : List VMIInterface
deriving DecidableEq, Repr

/-- The `status["phase"]` extraction: copy phase and derive readiness when
the field is present. -/
def applyVMIPhase (v : VMIStatus) (st : VirtualMachineStatus) : VirtualMachineStatus :=
  match v.phase with
  | some p => { st with phase := p, ready := p == PhaseRunning }
  | none => st

/-- The `status["nodeName"]` extraction. -/
def applyVMINode (v : VMIStatus) (st : VirtualMachineStatus) : VirtualMachineStatus :=
  match v.nodeName with
  | some n => { st with node := n }
  | none => st

/-- The `status["interfaces"][0]["ipAddress"]` extraction. -/
def applyVMIIp (v : VMIStatus) (st : VirtualMachineStatus) : VirtualMachineStatus :=
  match v.interfaces with
  | [] => st
  | iface :: _ =>
    match iface.ipAddress with
    | some ip => { st with ipAddress := ip }
    | none => st

/-- The status projection of `updateVMStatusFromVMI`: a missing instance
maps to phase Pending / not ready; a present instance has its phase,
node and first interface address copied, and a Ready=True condition set. -/
def updateVMStatusFromVMI (now : Int) (ovmi : Option VMIStatus) (vm : VirtualMachine) :
    VirtualMachine :=
  match ovmi with
  | none => { vm with status := { vm.status with phase := PhasePending, ready := false } }
  | some v =>
    let st := applyVMIIp v (applyVMINode v (applyVMIPhase v vm.status))
    let st := { st with conditions := (setStatusCondition now
        ⟨"Ready", true, "VMRunning", "Virtual machine is running",
          vm.meta.generation, 0⟩ st.conditions) }
    { vm with status := st }

/-- `updateVMStatus`: record an error phase and a Ready=False condition. -/
def updateVMStatus (now : Int) (vm : VirtualMachine) (phase msg : String) : VirtualMachine :=
  { vm with status := { vm.status with
      phase := phase
      ready := false
      conditions := (setStatusCondition now
        ⟨"Ready", false, "ReconciliationError", msg, vm.meta.generation, 0⟩
        vm.status.conditions) } }

/-! ### The VirtualMachine reconciler as a step function on store state -/

/-- The store state the VirtualMachine reconciler interacts with: the
declared resource, the external KubeVirt VM object, the trace of
run-strategy values written to the external object by reboot handling,
and the observed VMI. -/
structure VMWorld where
  vm : Option VirtualMachine
  kvVM : Option KubeVirtVM
  kvRunStrategyWrites : List String
  vmi : Option VMIStatus
deriving DecidableEq, Repr

/-- Outcomes of the fallible store writes a single reconcile invocation
may perform; `none` means the operation succeeds. -/
structure VMOps where
  deleteKv : Option StoreError
  updateVM : Option StoreError
  patchKv : Option StoreError
  updateKv1 : Option StoreError
  updateKv2 : Option StoreError
  statusUpdate : Option StoreError
deriving DecidableEq, Repr

/-- The oracle under which every store write succeeds. -/
def noFailOps : VMOps := ⟨none, none, none, none, none, none⟩

/-- A `ctrl.Result`: requeue flag and requeue-after delay in seconds. -/
structure ReconcileResult where
  requeue : Bool
  requeueAfterSeconds : Int
deriving DecidableEq, Repr

/-- The finalizer token `vmFinalizer`. -/
def vmFinalizer : String := "llmcloud.llmcloud.io/vm-finalizer"

/-- The reboot request annotation key. -/
def rebootKey : String := "llmcloud.io/reboot"

/-- `finalizeVM`: delete the external KubeVirt VM object, treating absence
as success (`client.IgnoreNotFound`). -/
def finalizeVM (ops : VMOps) (w : VMWorld) : VMWorld × Option StoreError :=
  match w.kvVM with
  | none => (w, none)
  | some _ =>
    match ops.deleteKv with
    | some e => (w, some e)
    | none => ({ w with kvVM := none }, none)

/-- `rebootVM`: fetch the external object, write run-strategy Halted, then
write run-strategy Always; any failure aborts with that error. -/
def rebootVM (ops : VMOps) (w : VMWorld) : VMWorld × Option StoreError :=
  match w.kvVM with
  | none => (w, some StoreError.notFound)
  | some kv =>
    match ops.updateKv1 with
    | some e => (w, some e)
    | none =>
      let w1 := { w with kvVM := some { kv with runStrategy := "Halted" }
                         kvRunStrategyWrites := w.kvRunStrategyWrites ++ ["Halted"] }
      match ops.updateKv2 with
      | some e => (w1, some e)
      | none =>
        ({ w1 with kvVM := some { kv with runStrategy := "Always" }
                   kvRunStrategyWrites := w1.kvRunStrategyWrites ++ ["Always"] }, none)

/-- The tail of `Reconcile`: apply the desired external object by
server-side patch, then project the VMI into Status and persist it.  A
patch failure records an Error status (its own persist error ignored) and
returns the error; a status persist failure is swallowed and requeued
after 10 seconds. -/
def syncAndStatus (now : Int) (ops : VMOps) (w : VMWorld) (vm : VirtualMachine) :
    VMWorld × ReconcileResult × Option StoreError :=
  match ops.patchKv with
  | some e =>
    let vm1 := updateVMStatus now vm "Error" e.message
    let w1 := if ops.statusUpdate = none then { w with vm := some vm1 } else w
    (w1, ⟨false, 0⟩, some e)
  | none =>
    let w1 := { w with kvVM := some (buildKubeVirtVM vm) }
    let vm1 := updateVMStatusFromVMI now w1.vmi vm
    match ops.statusUpdate with
    | some _ => (w1, ⟨false, 10⟩, none)
    | none => ({ w1 with vm := some vm1 }, ⟨false, 0⟩, none)

/-- `VirtualMachineReconciler.Reconcile` as a step function: fetch,
deletion/finalizer handling, reboot annotation handling, external-object
synchronization and status projection. -/
def Reconcile (now : Int) (ops : VMOps) (w : VMWorld) :
    VMWorld × ReconcileResult × Option StoreError :=
  match w.vm with
  | none => (w, ⟨false, 0⟩, none)
  | some vm =>
    if vm.meta.deletionTimestampSet then
      if vmFinalizer ∈ vm.meta.finalizers then
        match finalizeVM ops w with
        | (w1, some e) => (w1, ⟨false, 0⟩, some e)
        | (w1, none) =>
          let vm1 : VirtualMachine := { vm with meta := removeFinalizer vm.meta vmFinalizer }
          match ops.updateVM with
          | some e => (w1, ⟨false, 0⟩, some e)
          | none => ({ w1 with vm := some vm1 }, ⟨false, 0⟩, none)
      else (w, ⟨false, 0⟩, none)
    else if vmFinalizer ∈ vm.meta.finalizers then
      if vm.meta.annots.lookup rebootKey = some "true" then
        match rebootVM ops w with
        | (w1, some e) => (w1, ⟨false, 0⟩, some e)
        | (w1, none) =>
          let vm1 : VirtualMachine := { vm with meta := removeAnnot vm.meta rebootKey }
          match ops.updateVM with
          | some e => (w1, ⟨false, 0⟩, some e)
          | none => syncAndStatus now ops { w1 with vm := some vm1 } vm1
      else syncAndStatus now ops w vm
    else
      let vm1 : VirtualMachine := { vm with meta := addFinalizer vm.meta vmFinalizer }
      match ops.updateVM with
      | some e => (w, ⟨true, 0⟩, some e)
      | none => ({ w with vm := some vm1 }, ⟨true, 0⟩, none)

/-- Iterated reconciliation of the same world. -/
def iterateReconcile (now : Int) (ops : VMOps) : Nat → VMWorld → VMWorld
  | 0, w => w
  | n + 1, w => iterateReconcile now ops n (Reconcile now ops w).1

/-! ### Project (multi-tenant workspace) resource types and reconciler -/

/-- `ProjectMember`: a username and a role. -/
structure ProjectMember where
  username : String
  role : String
deriving DecidableEq, Repr

/-- `ProjectSpec` (resource quotas are not read by the reconciler and are
not modeled). -/
structure ProjectSpec where
  description : String
  members : List ProjectMember
deriving DecidableEq, Repr

/-- `ProjectStatus`. -/
structure ProjectStatus where
  ns : String
  phase : String
  vmCount : Int
  llmModelCount : Int
  serviceCount : Int
  conditions : List Condition
deriving DecidableEq, Repr

/-- The `Project` custom resource (cluster-scoped). -/
structure Project where
  meta : ObjectMeta
  spec : ProjectSpec
  status : ProjectStatus
deriving DecidableEq, Repr

/-- A namespace object: name and labels. -/
structure NamespaceObj where
  name : String
  labels : List (String × String)
deriving DecidableEq, Repr

/-- A subject of a role binding. -/
structure RBSubject where
  kind : String
  name : String
deriving DecidableEq, Repr

/-- A role binding: name, namespace, labels, subjects and the referenced
cluster role name. -/
structure RoleBinding where
  name : String
  ns : String
  labels : List (String × String)
  subjects : List RBSubject
  roleRefName : String
deriving DecidableEq, Repr

/-- The finalizer token `projectFinalizer`. -/
def projectFinalizer : String := "llmcloud.llmcloud.io/finalizer"

/-- The namespace name computed from the Project name:
`fmt.Sprintf("project-%s", project.Name)`. -/
def projectNamespaceName (name : String) : String := "project-" ++ name

/-- The fixed role table of `getRoleForMember`. -/
def roleMap : List (String × String) :=
  [("owner", "admin"), ("admin", "admin"), ("developer", "edit")]

/-- `getRoleForMember`: look the role up in the fixed table, defaulting to
`"view"`. -/
def getRoleForMember (role : String) : String :=
  (roleMap.lookup role).getD "view"

/-- Find the namespace with the given name in the store. -/
def findNs (name : String) : List NamespaceObj → Option NamespaceObj
  | [] => none
  | n :: rest => if n.name = name then some n else findNs name rest

/-- Replace the first namespace with the same name. -/
def replaceNs (n' : NamespaceObj) : List NamespaceObj → List NamespaceObj
  | [] => []
  | n :: rest => if n.name = n'.name then n' :: rest else n :: replaceNs n' rest

/-- The namespace object `reconcileNamespace` builds. -/
def desiredNamespace (projName nsName : String) : NamespaceObj :=
  { name := nsName
    labels := [("llmcloud.io/project", projName), ("llmcloud.io/managed", "true")] }

/-- `reconcileNamespace`: create the namespace when absent, else overwrite
its labels with the desired ones. -/
def reconcileNamespace (projName nsName : String) (store : List NamespaceObj) :
    List NamespaceObj :=
  let ns := desiredNamespace projName nsName
  match findNs nsName store with
  | none => store ++ [ns]
  | some existing => replaceNs { existing with labels := ns.labels } store

/-- Find the role binding with the given name and namespace. -/
def findRB (name nsName : String) : List RoleBinding → Option RoleBinding
  | [] => none
  | rb :: rest => if rb.name = name ∧ rb.ns = nsName then some rb else findRB name nsName rest

/-- Replace the first role binding with the same name and namespace. -/
def replaceRB (rb' : RoleBinding) : List RoleBinding → List RoleBinding
  | [] => []
  | rb :: rest =>
    if rb.name = rb'.name ∧ rb.ns = rb'.ns then rb' :: rest else rb :: replaceRB rb' rest

/-- The role binding `reconcileRBAC` builds for one member:
`fmt.Sprintf("%s-%s", project.Name, member.Username)` in the project's
namespace, a single User subject and the mapped cluster role name. -/
def desiredRoleBinding (projName nsName : String) (m : ProjectMember) : RoleBinding :=
  { name := projName ++ "-" ++ m.username
    ns := nsName
    labels := [("llmcloud.io/project", projName), ("llmcloud.io/managed", "true")]
    subjects := [⟨"User", m.username⟩]
    roleRefName := getRoleForMember m.role }

/-- One iteration of the `reconcileRBAC` loop: create the binding when
absent, else overwrite its subjects and role reference. -/
def applyMember (projName nsName : String) (m : ProjectMember) (store : List RoleBinding) :
    List RoleBinding :=
  match findRB (desiredRoleBinding projName nsName m).name nsName store with
  | none => store ++ [desiredRoleBinding projName nsName m]
  | some existing =>
    replaceRB { existing with
      subjects := (desiredRoleBinding projName nsName m).subjects
      roleRefName := (desiredRoleBinding projName nsName m).roleRefName } store

/-- `reconcileRBAC`: fold the per-member create-or-update over the members
list. -/
def reconcileRBAC (projName nsName : String) (members : List ProjectMember)
    (store : List RoleBinding) : List RoleBinding :=
  members.foldl (fun s m => applyMember projName nsName m s) store

/-- The status the Project reconciler writes on success: namespace name,
phase Active and a Ready=True condition. -/
def setProjectReady (now : Int) (p : Project) (nsName : String) : Project :=
  { p with status := { p.status with
      ns := nsName
      phase := "Active"
      conditions := (setStatusCondition now
        ⟨"Ready", true, "ProjectReady", "Project is ready", p.meta.generation, 0⟩
        p.status.conditions) } }

/-- The store state the Project reconciler interacts with. -/
structure ProjectWorld where
  project : Option Project
  namespaces : List NamespaceObj
  roleBindings : List RoleBinding
deriving DecidableEq, Repr

/-- `ProjectReconciler.Reconcile` as a step function; store writes are
modeled as succeeding (the claims about this reconciler concern the
success path).  `finalizeProject` is a no-op: namespace deletion cascades
through the owner reference. -/
def ProjectReconcile (now : Int) (w : ProjectWorld) : ProjectWorld × ReconcileResult :=
  match w.project with
  | none => (w, ⟨false, 0⟩)
  | some p =>
    if p.meta.deletionTimestampSet then
      if projectFinalizer ∈ p.meta.finalizers then
        ({ w with project := some { p with meta := removeFinalizer p.meta projectFinalizer } },
         ⟨false, 0⟩)
      else (w, ⟨false, 0⟩)
    else if projectFinalizer ∈ p.meta.finalizers then
      let nsName := projectNamespaceName p.meta.name
      let nss := reconcileNamespace p.meta.name nsName w.namespaces
      let rbs := reconcileRBAC p.meta.name nsName p.spec.members w.roleBindings
      ({ w with namespaces := nss
                roleBindings := rbs
                project := some (setProjectReady now p nsName) }, ⟨false, 0⟩)
    else
      ({ w with project := some { p with meta := addFinalizer p.meta projectFinalizer } },
       ⟨true, 0⟩)

/-! ### Helper lemmas -/

lemma colon_mem_data (os v : String) : ':' ∈ (os ++ ":" ++ v).data := by
  have h : (os ++ ":" ++ v).data = os.data ++ ':' :: v.data := by
    simp [String.data_append]
  rw [h]
  exact List.mem_append_right _ (List.mem_cons_self _ _)

lemma versioned_beq_false (k os v : String) (hk : ':' ∉ k.data) :
    ((os ++ ":" ++ v) == k) = false := by
  apply beq_eq_false_iff_ne.mpr
  intro h
  apply hk
  rw [← h]
  exact colon_mem_data os v

/-- A versioned key `os:version` never hits the table: no key of
`OSImageMap` contains a colon. -/
lemma lookup_versioned_none (os v : String) :
    OSImageMap.lookup (os ++ ":" ++ v) = none := by
  simp [OSImageMap, List.lookup,
    versioned_beq_false "ubuntu" os v (by decide),
    versioned_beq_false "fedora" os v (by decide),
    versioned_beq_false "debian" os v (by decide),
    versioned_beq_false "centos" os v (by decide),
    versioned_beq_false "alpine" os v (by decide),
    versioned_beq_false "cirros" os v (by decide),
    versioned_beq_false "freebsd" os v (by decide)]

/-- An OS absent from the table resolves to the cirros fallback image for
every requested version. -/
lemma getImageForOS_unknown (os v : String) (h : OSImageMap.lookup os = none) :
    GetImageForOS os v = "quay.io/kubevirt/cirros-container-disk-demo:latest" := by
  unfold GetImageForOS defaultImageForOS
  have hc : (List.lookup "cirros" OSImageMap).getD ""
      = "quay.io/kubevirt/cirros-container-disk-demo:latest" := by decide
  by_cases hv : v = ""
  · subst hv
    simp [h, hc]
  · simp [hv, lookup_versioned_none, h, hc]

lemma cloudconfig_append_ne (x : String) :
    ("#cloud-config\nssh_authorized_keys:\n" ++ x) ≠ "" := by
  intro h
  have h2 := congrArg String.length h
  rw [String.length_append] at h2
  have h3 : ("#cloud-config\nssh_authorized_keys:\n").length = 35 := rfl
  have h4 : ("" : String).length = 0 := rfl
  omega

lemma cloudInitUserData_ne_iff (s : VirtualMachineSpec) :
    cloudInitUserData s ≠ "" ↔ (s.cloudInit ≠ "" ∨ s.sshKeys ≠ []) := by
  unfold cloudInitUserData
  by_cases hc : s.cloudInit = ""
  · by_cases hk : s.sshKeys = []
    · simp [hc, hk]
    · have hl : 0 < s.sshKeys.length := List.length_pos.mpr hk
      simp [hc, hk, hl, cloudconfig_append_ne]
  · simp [hc]

/-! ### C3: the desired-state mapping of buildKubeVirtVM -/

/-- C3: for every VirtualMachine spec the built external object satisfies
the reference mapping: run-strategy defaults to "Always" when unset; the
boot disk image is `GetImageForOS` of the OS and version, where
os="ubuntu" with no version resolves to the default ubuntu image and an
OS absent from the lookup table resolves to the cirros fallback for any
version; a cloud-init volume is attached iff cloud-init text or SSH keys
are present, with keys rendered into a minimal cloud-init document when
no document was given; a persistent data volume is always declared with
size defaulting to "10Gi" and storage class defaulting to "local-path";
and CPU count and memory are passed through unchanged. -/
theorem buildKubeVirtVM_reference_mapping (vm : VirtualMachine) (os v : String)
    (hos : OSImageMap.lookup os = none) :
    (buildKubeVirtVM vm).runStrategy
        = (if vm.spec.runStrategy = "" then "Always" else vm.spec.runStrategy)
    ∧ (buildKubeVirtVM vm).volumes.head?
        = some ⟨"containerdisk", .containerDisk (GetImageForOS vm.spec.os vm.spec.osVersion)⟩
    ∧ GetImageForOS "ubuntu" "" = "quay.io/containerdisks/ubuntu:22.04"
    ∧ GetImageForOS os v = "quay.io/kubevirt/cirros-container-disk-demo:latest"
    ∧ ((KVVolume.mk "cloudinitdisk" (.cloudInitNoCloud (cloudInitUserData vm.spec))
          ∈ (buildKubeVirtVM vm).volumes)
        ↔ (vm.spec.cloudInit ≠ "" ∨ vm.spec.sshKeys ≠ []))
    ∧ (vm.spec.cloudInit = "" → vm.spec.sshKeys ≠ [] →
        cloudInitUserData vm.spec
          = "#cloud-config\nssh_authorized_keys:\n" ++ String.intercalate "\n" vm.spec.sshKeys)
    ∧ KVVolume.mk "datadisk" (.dataVolume (vm.meta.name ++ "-disk")) ∈ (buildKubeVirtVM vm).volumes
    ∧ (buildKubeVirtVM vm).dvSize = (if vm.spec.diskSize = "" then "10Gi" else vm.spec.diskSize)
    ∧ (buildKubeVirtVM vm).dvStorageClass
        = (if vm.spec.storageClass = "" then "local-path" else vm.spec.storageClass)
    ∧ (buildKubeVirtVM vm).cpuCores = vm.spec.cpus
    ∧ (buildKubeVirtVM vm).memory = vm.spec.memory := by
  refine ⟨?_, ?_, by decide, getImageForOS_unknown os v hos, ?_, ?_, ?_, ?_, ?_, ?_, ?_⟩
  · simp [buildKubeVirtVM]
  · by_cases hu : cloudInitUserData vm.spec = "" <;> simp [buildKubeVirtVM, hu]
  · rw [← cloudInitUserData_ne_iff]
    by_cases hu : cloudInitUserData vm.spec = ""
    · simp [buildKubeVirtVM, hu]
    · simp [buildKubeVirtVM, hu]
  · intro hc hk
    have hl : 0 < vm.spec.sshKeys.length := List.length_pos.mpr hk
    simp [cloudInitUserData, hc, hl]
  · by_cases hu : cloudInitUserData vm.spec = "" <;> simp [buildKubeVirtVM, hu]
  · by_cases hu : cloudInitUserData vm.spec = "" <;> simp [buildKubeVirtVM, hu]
  · by_cases hu : cloudInitUserData vm.spec = "" <;> simp [buildKubeVirtVM, hu]
  · simp [buildKubeVirtVM]
  · simp [buildKubeVirtVM]

/-- Witness for C3 at a concrete spec: ubuntu VM with an SSH key and all
optional fields unset, and unknown OS "windows" version "11". -/
theorem buildKubeVirtVM_reference_mapping_witness :
    OSImageMap.lookup "windows" = none
    ∧ GetImageForOS "windows" "11" = "quay.io/kubevirt/cirros-container-disk-demo:latest"
    ∧ (buildKubeVirtVM
        { meta := { name := "vm1", ns := "default", deletionTimestampSet := false,
                    finalizers := [vmFinalizer], annots := [], generation := 3 }
          spec := { cpus := 2, memory := "4Gi", diskSize := "", os := "ubuntu",
                    osVersion := "", cloudInit := "", sshKeys := ["ssh-rsa AAA"],
                    runStrategy := "", storageClass := "" }
          status := { phase := "", node := "", ipAddress := "", ready := false,
                      conditions := [] } }).runStrategy = "Always" := by
  refine ⟨by decide, ?_, ?_⟩
  · exact (buildKubeVirtVM_reference_mapping
      { meta := { name := "vm1", ns := "default", deletionTimestampSet := false,
                  finalizers := [vmFinalizer], annots := [], generation := 3 }
        spec := { cpus := 2, memory := "4Gi", diskSize := "", os := "ubuntu",
                  osVersion := "", cloudInit := "", sshKeys := ["ssh-rsa AAA"],
                  runStrategy := "", storageClass := "" }
        status := { phase := "", node := "", ipAddress := "", ready := false,
                    conditions := [] } } "windows" "11" (by decide)).2.2.2.1
  · have h := (buildKubeVirtVM_reference_mapping
      { meta := { name := "vm1", ns := "default", deletionTimestampSet := false,
                  finalizers := [vmFinalizer], annots := [], generation := 3 }
        spec := { cpus := 2, memory := "4Gi", diskSize := "", os := "ubuntu",
                  osVersion := "", cloudInit := "", sshKeys := ["ssh-rsa AAA"],
                  runStrategy := "", storageClass := "" }
        status := { phase := "", node := "", ipAddress := "", ready := false,
                    conditions := [] } } "windows" "11" (by decide)).1
    simpa using h

/-! ### Status projection lemmas (C5, C6) -/

@[simp] lemma applyVMIPhase_node (v : VMIStatus) (st : VirtualMachineStatus) :
    (applyVMIPhase v st).node = st.node := by
  cases h : v.phase <;> simp [applyVMIPhase, h]

@[simp] lemma applyVMIPhase_ipAddress (v : VMIStatus) (st : VirtualMachineStatus) :
    (applyVMIPhase v st).ipAddress = st.ipAddress := by
  cases h : v.phase <;> simp [applyVMIPhase, h]

@[simp] lemma applyVMIPhase_conditions (v : VMIStatus) (st : VirtualMachineStatus) :
    (applyVMIPhase v st).conditions = st.conditions := by
  cases h : v.phase <;> simp [applyVMIPhase, h]

@[simp] lemma applyVMINode_phase (v : VMIStatus) (st : VirtualMachineStatus) :
    (applyVMINode v st).phase = st.phase := by
  cases h : v.nodeName <;> simp [applyVMINode, h]

@[simp] lemma applyVMINode_ready (v : VMIStatus) (st : VirtualMachineStatus) :
    (applyVMINode v st).ready = st.ready := by
  cases h : v.nodeName <;> simp [applyVMINode, h]

@[simp] lemma applyVMINode_ipAddress (v : VMIStatus) (st : VirtualMachineStatus) :
    (applyVMINode v st).ipAddress = st.ipAddress := by
  cases h : v.nodeName <;> simp [applyVMINode, h]

@[simp] lemma applyVMINode_conditions (v : VMIStatus) (st : VirtualMachineStatus) :
    (applyVMINode v st).conditions = st.conditions := by
  cases h : v.nodeName <;> simp [applyVMINode, h]

@[simp] lemma applyVMIIp_phase (v : VMIStatus) (st : VirtualMachineStatus) :
    (applyVMIIp v st).phase = st.phase := by
  cases h : v.interfaces with
  | nil => simp [applyVMIIp, h]
  | cons iface rest => cases hi : iface.ipAddress <;> simp [applyVMIIp, h, hi]

@[simp] lemma applyVMIIp_ready (v : VMIStatus) (st : VirtualMachineStatus) :
    (applyVMIIp v st).ready = st.ready := by
  cases h : v.interfaces with
  | nil => simp [applyVMIIp, h]
  | cons iface rest => cases hi : iface.ipAddress <;> simp [applyVMIIp, h, hi]

@[simp] lemma applyVMIIp_node (v : VMIStatus) (st : VirtualMachineStatus) :
    (applyVMIIp v st).node = st.node := by
  cases h : v.interfaces with
  | nil => simp [applyVMIIp, h]
  | cons iface rest => cases hi : iface.ipAddress <;> simp [applyVMIIp, h, hi]

@[simp] lemma applyVMIIp_conditions (v : VMIStatus) (st : VirtualMachineStatus) :
    (applyVMIIp v st).conditions = st.conditions := by
  cases h : v.interfaces with
  | nil => simp [applyVMIIp, h]
  | cons iface rest => cases hi : iface.ipAddress <;> simp [applyVMIIp, h, hi]

lemma findCondition_set (now : Int) (c : Condition) (l : List Condition) :
    (findCondition c.type (setStatusCondition now c l)).map Condition.status = some c.status := by
  induction l with
  | nil => simp [setStatusCondition, findCondition]
  | cons c0 rest ih =>
    by_cases h : c0.type = c.type
    · by_cases hs : c0.status = c.status <;> simp [setStatusCondition, findCondition, h, hs]
    · simp [setStatusCondition, findCondition, h, ih]

/-- C5: the status projection maps an absent instance to phase "Pending"
and ready=false; a present instance has its reported phase copied with
ready equal to (phase == "Running"), and the node name and the first
interface's IP address copied when those fields are present. -/
theorem updateVMStatusFromVMI_projection (now : Int) (vm : VirtualMachine) (v : VMIStatus)
    (p n ip : String) (iface : VMIInterface) (rest : List VMIInterface)
    (hph : v.phase = some p) :
    ((updateVMStatusFromVMI now none vm).status.phase = PhasePending
      ∧ (updateVMStatusFromVMI now none vm).status.ready = false)
    ∧ ((updateVMStatusFromVMI now (some v) vm).status.phase = p
        ∧ (updateVMStatusFromVMI now (some v) vm).status.ready = (p == PhaseRunning))
    ∧ (v.nodeName = some n → (updateVMStatusFromVMI now (some v) vm).status.node = n)
    ∧ (v.interfaces = iface :: rest → iface.ipAddress = some ip →
        (updateVMStatusFromVMI now (some v) vm).status.ipAddress = ip) := by
  refine ⟨⟨rfl, rfl⟩, ⟨?_, ?_⟩, ?_, ?_⟩
  · simp [updateVMStatusFromVMI, applyVMIPhase, hph]
  · simp [updateVMStatusFromVMI, applyVMIPhase, hph]
  · intro hn
    simp [updateVMStatusFromVMI, applyVMINode, hn]
  · intro hi hip
    simp [updateVMStatusFromVMI, applyVMIIp, hi, hip]

/-- Witness for C5 at a concrete instance status: phase "Scheduling",
node "worker-1", first interface IP "10.0.0.9". -/
theorem updateVMStatusFromVMI_projection_witness :
    (VMIStatus.mk (some "Scheduling") (some "worker-1") [⟨some "10.0.0.9"⟩]).phase
        = some "Scheduling"
    ∧ (let vm : VirtualMachine :=
        { meta := { name := "vm1", ns := "default", deletionTimestampSet := false,
                    finalizers := [vmFinalizer], annots := [], generation := 1 }
          spec := { cpus := 1, memory := "1Gi", diskSize := "", os := "ubuntu",
                    osVersion := "", cloudInit := "", sshKeys := [],
                    runStrategy := "", storageClass := "" }
          status := { phase := "", node := "", ipAddress := "", ready := true,
                      conditions := [] } }
       let v : VMIStatus := ⟨some "Scheduling", some "worker-1", [⟨some "10.0.0.9"⟩]⟩
       ((updateVMStatusFromVMI 0 none vm).status.phase = PhasePending
          ∧ (updateVMStatusFromVMI 0 none vm).status.ready = false)
        ∧ ((updateVMStatusFromVMI 0 (some v) vm).status.phase = "Scheduling"
            ∧ (updateVMStatusFromVMI 0 (some v) vm).status.ready = ("Scheduling" == PhaseRunning))
        ∧ (v.nodeName = some "worker-1"
            → (updateVMStatusFromVMI 0 (some v) vm).status.node = "worker-1")
        ∧ (v.interfaces = ⟨some "10.0.0.9"⟩ :: []
            → (VMIInterface.mk (some "10.0.0.9")).ipAddress = some "10.0.0.9"
            → (updateVMStatusFromVMI 0 (some v) vm).status.ipAddress = "10.0.0.9")) :=
  ⟨rfl, updateVMStatusFromVMI_projection 0 _ _ "Scheduling" "worker-1" "10.0.0.9"
    ⟨some "10.0.0.9"⟩ [] rfl⟩

/-- C6: once an instance is observed, the projection sets the "Ready"
condition to status True regardless of the instance's phase, including
phases other than "Running". -/
theorem readyCondition_true_whenever_vmi_observed (now : Int) (vm : VirtualMachine)
    (v : VMIStatus) :
    (findCondition "Ready"
        (updateVMStatusFromVMI now (some v) vm).status.conditions).map Condition.status
      = some true := by
  have h := findCondition_set now
    ⟨"Ready", true, "VMRunning", "Virtual machine is running", vm.meta.generation, 0⟩
    (applyVMIIp v (applyVMINode v (applyVMIPhase v vm.status))).conditions
  simpa [updateVMStatusFromVMI] using h

/-! ### Role binding lemmas (C9) -/

lemma string_append_left_cancel (a b c : String) (h : a ++ b = a ++ c) : b = c := by
  have hd := congrArg String.data h
  simp only [String.data_append] at hd
  have hbc := List.append_cancel_left hd
  cases b
  cases c
  simp only at hbc
  rw [hbc]

lemma findRB_keys (name nsName : String) (store : List RoleBinding) (rb : RoleBinding)
    (h : findRB name nsName store = some rb) : rb.name = name ∧ rb.ns = nsName := by
  induction store with
  | nil => simp [findRB] at h
  | cons c rest ih =>
    by_cases hc : c.name = name ∧ c.ns = nsName
    · simp [findRB, hc] at h
      subst h
      exact hc
    · simp [findRB, hc] at h
      exact ih h

lemma findRB_append_single (name nsName : String) (store : List RoleBinding)
    (rb : RoleBinding) (hne : ¬ rb.name = name) :
    findRB name nsName (store ++ [rb]) = findRB name nsName store := by
  induction store with
  | nil => simp [findRB, hne]
  | cons c rest ih =>
    by_cases hc : c.name = name ∧ c.ns = nsName <;> simp [findRB, hc, ih]

lemma findRB_append_none (name nsName : String) (store : List RoleBinding)
    (rb : RoleBinding) (h : findRB name nsName store = none) :
    findRB name nsName (store ++ [rb]) = findRB name nsName [rb] := by
  induction store with
  | nil => simp
  | cons c rest ih =>
    by_cases hc : c.name = name ∧ c.ns = nsName
    · simp [findRB, hc] at h
    · simp [findRB, hc] at h ⊢
      exact ih h

lemma findRB_replace_found (name nsName : String) (rb' : RoleBinding)
    (store : List RoleBinding) (ex : RoleBinding)
    (hn : rb'.name = name) (hns : rb'.ns = nsName)
    (h : findRB name nsName store = some ex) :
    findRB name nsName (replaceRB rb' store) = some rb' := by
  induction store with
  | nil => simp [findRB] at h
  | cons c rest ih =>
    by_cases hc : c.name = name ∧ c.ns = nsName
    · simp [replaceRB, hn, hns, hc, findRB]
    · simp [findRB, hc] at h
      have hc2 : ¬ (c.name = rb'.name ∧ c.ns = rb'.ns) := by rw [hn, hns]; exact hc
      simp [replaceRB, hc2, findRB, hc, ih h]

lemma findRB_replace_ne (name nsName : String) (rb' : RoleBinding)
    (store : List RoleBinding) (hne : ¬ rb'.name = name) :
    findRB name nsName (replaceRB rb' store) = findRB name nsName store := by
  induction store with
  | nil => simp [replaceRB]
  | cons c rest ih =>
    by_cases hc : c.name = rb'.name ∧ c.ns = rb'.ns
    · have hcn : ¬ (c.name = name ∧ c.ns = nsName) := by
        intro hcon
        exact hne (by rw [← hc.1, hcon.1])
      simp [replaceRB, hc, findRB, hne, hcn]
    · simp [replaceRB, hc, findRB, ih]

lemma applyMember_find_self (pn nsName : String) (m : ProjectMember)
    (store : List RoleBinding) :
    (findRB (pn ++ "-" ++ m.username) nsName
        (applyMember pn nsName m store)).map RoleBinding.roleRefName
      = some (getRoleForMember m.role) := by
  have hdname : (desiredRoleBinding pn nsName m).name = pn ++ "-" ++ m.username := rfl
  cases hf : findRB (desiredRoleBinding pn nsName m).name nsName store with
  | none =>
    rw [hdname] at hf
    simp only [applyMember, hdname, hf]
    rw [findRB_append_none _ _ _ _ hf]
    simp [findRB, desiredRoleBinding]
  | some ex =>
    have hkeys := findRB_keys _ _ _ _ hf
    rw [hdname] at hf hkeys
    simp only [applyMember, hdname, hf]
    have hrepl := findRB_replace_found (pn ++ "-" ++ m.username) nsName
      { ex with
        subjects := (desiredRoleBinding pn nsName m).subjects
        roleRefName := (desiredRoleBinding pn nsName m).roleRefName }
      store ex hkeys.1 hkeys.2 hf
    rw [hrepl]
    simp [desiredRoleBinding]

lemma applyMember_find_frame (pn nsName name : String) (m : ProjectMember)
    (store : List RoleBinding) (hne : ¬ name = pn ++ "-" ++ m.username) :
    findRB name nsName (applyMember pn nsName m store) = findRB name nsName store := by
  have hdname : (desiredRoleBinding pn nsName m).name = pn ++ "-" ++ m.username := rfl
  cases hf : findRB (desiredRoleBinding pn nsName m).name nsName store with
  | none =>
    simp only [applyMember, hf]
    apply findRB_append_single
    rw [hdname]
    intro hcon
    exact hne hcon.symm
  | some ex =>
    have hkeys := findRB_keys _ _ _ _ hf
    simp only [applyMember, hf]
    apply findRB_replace_ne
    rw [hdname] at hkeys
    intro hcon
    exact hne (hcon ▸ hkeys.1)

lemma reconcileRBAC_frame (pn nsName name : String) (members : List ProjectMember)
    (store : List RoleBinding)
    (h : ∀ m ∈ members, ¬ name = pn ++ "-" ++ m.username) :
    findRB name nsName (reconcileRBAC pn nsName members store) = findRB name nsName store := by
  induction members generalizing store with
  | nil => rfl
  | cons m0 rest ih =>
    have step : reconcileRBAC pn nsName (m0 :: rest) store
        = reconcileRBAC pn nsName rest (applyMember pn nsName m0 store) := rfl
    rw [step, ih _ (fun m hm => h m (List.mem_cons_of_mem _ hm)),
      applyMember_find_frame pn nsName name m0 store (h m0 (List.mem_cons_self _ _))]

/-- C9: for every declared member the role binding created or updated by
the RBAC reconciliation references the cluster role given by the fixed
mapping owner→admin, admin→admin, developer→edit, and anything else —
including "viewer" and unrecognized role strings — →view. -/
theorem rbac_role_mapping (pn nsName r : String) (members : List ProjectMember)
    (store : List RoleBinding) (m : ProjectMember)
    (hm : m ∈ members)
    (hnodup : (members.map ProjectMember.username).Nodup) :
    ((findRB (pn ++ "-" ++ m.username) nsName
        (reconcileRBAC pn nsName members store)).map RoleBinding.roleRefName
      = some (getRoleForMember m.role))
    ∧ getRoleForMember "owner" = "admin"
    ∧ getRoleForMember "admin" = "admin"
    ∧ getRoleForMember "developer" = "edit"
    ∧ getRoleForMember "viewer" = "view"
    ∧ (roleMap.lookup r = none → getRoleForMember r = "view") := by
  refine ⟨?_, by decide, by decide, by decide, by decide, ?_⟩
  · induction members generalizing store with
    | nil => cases hm
    | cons m0 rest ih =>
      have hstep : reconcileRBAC pn nsName (m0 :: rest) store
          = reconcileRBAC pn nsName rest (applyMember pn nsName m0 store) := rfl
      rw [List.map_cons, List.nodup_cons] at hnodup
      rcases List.mem_cons.mp hm with heq | hmem
      · subst heq
        rw [hstep, reconcileRBAC_frame]
        · exact applyMember_find_self pn nsName m store
        · intro m' hm' hcon
          have : m.username = m'.username :=
            string_append_left_cancel (pn ++ "-") _ _ hcon
          exact hnodup.1 (this ▸ List.mem_map_of_mem ProjectMember.username hm')
      · rw [hstep]
        exact ih _ hmem hnodup.2
  · intro h
    simp [getRoleForMember, h]

/-- Witness for C9: member "bob" with unrecognized role "guest" in a
one-member project, and the unmapped role string "guest". -/
theorem rbac_role_mapping_witness :
    (ProjectMember.mk "bob" "guest") ∈ [ProjectMember.mk "bob" "guest"]
    ∧ (([ProjectMember.mk "bob" "guest"].map ProjectMember.username).Nodup)
    ∧ (((findRB ("proj" ++ "-" ++ "bob") "project-proj"
          (reconcileRBAC "proj" "project-proj" [ProjectMember.mk "bob" "guest"] [])).map
            RoleBinding.roleRefName
        = some (getRoleForMember "guest"))
      ∧ getRoleForMember "owner" = "admin"
      ∧ getRoleForMember "admin" = "admin"
      ∧ getRoleForMember "developer" = "edit"
      ∧ getRoleForMember "viewer" = "view"
      ∧ (roleMap.lookup "guest" = none → getRoleForMember "guest" = "view")) :=
  ⟨List.mem_cons_self _ _, by decide,
    rbac_role_mapping "proj" "project-proj" "guest" [⟨"bob", "guest"⟩] [] ⟨"bob", "guest"⟩
      (List.mem_cons_self _ _) (by decide)⟩

/-! ### C4: reconciling the Workspace "demo" -/

/-- A fresh Project named "demo" with no members, finalizer already
present and zero-valued status. -/
def demoProject : Project :=
  { meta := { name := "demo", ns := "", deletionTimestampSet := false,
              finalizers := [projectFinalizer], annots := [], generation := 1 }
    spec := { description := "", members := [] }
    status := { ns := "", phase := "", vmCount := 0, llmModelCount := 0, serviceCount := 0,
                conditions := [] } }

/-- The store holding only the fresh "demo" Project. -/
def demoProjectWorld : ProjectWorld :=
  { project := some demoProject, namespaces := [], roleBindings := [] }

/-- Counterexample to C4 as stated: reconciling the Workspace "demo"
creates the namespace "project-demo", not "workspace-demo" — the prefix
the code uses is "project-". -/
theorem workspace_demo_namespace_counterexample :
    ((ProjectReconcile 0 demoProjectWorld).1.namespaces.map NamespaceObj.name)
        = ["project-demo"]
    ∧ ¬ ((ProjectReconcile 0 demoProjectWorld).1.namespaces.map NamespaceObj.name)
        = ["workspace-demo"]
    ∧ ((ProjectReconcile 0 demoProjectWorld).1.project.map (fun q => q.status.ns))
        = some "project-demo" := by
  constructor
  · rfl
  constructor
  · decide
  · rfl

/-- C4 as amended: reconciling the Workspace "demo" (with no members)
creates the namespace computed as prefix + name with prefix "project-",
namely "project-demo"; on success the status records that namespace name,
phase "Active", and vmCount stays 0. -/
theorem project_demo_reconcile (now : Int) (w : ProjectWorld) (p : Project)
    (hp : w.project = some p)
    (hname : p.meta.name = "demo")
    (hdel : p.meta.deletionTimestampSet = false)
    (hfin : projectFinalizer ∈ p.meta.finalizers)
    (hmem : p.spec.members = [])
    (hns : w.namespaces = [])
    (hvc : p.status.vmCount = 0) :
    ((ProjectReconcile now w).1.namespaces.map NamespaceObj.name) = ["project-demo"]
    ∧ ((ProjectReconcile now w).1.project.map (fun q => q.status.ns)) = some "project-demo"
    ∧ ((ProjectReconcile now w).1.project.map (fun q => q.status.phase)) = some "Active"
    ∧ ((ProjectReconcile now w).1.project.map (fun q => q.status.vmCount)) = some 0 := by
  simp only [ProjectReconcile, hp, hdel, hfin, hmem, hns, hname]
  simp [projectNamespaceName, reconcileNamespace, findNs, desiredNamespace, reconcileRBAC,
    setProjectReady, hvc]

/-- Witness for C4 (amended) at the concrete "demo" Workspace. -/
theorem project_demo_reconcile_witness :
    demoProjectWorld.project = some demoProject
    ∧ (((ProjectReconcile 0 demoProjectWorld).1.namespaces.map NamespaceObj.name)
          = ["project-demo"]
      ∧ ((ProjectReconcile 0 demoProjectWorld).1.project.map (fun q => q.status.ns))
          = some "project-demo"
      ∧ ((ProjectReconcile 0 demoProjectWorld).1.project.map (fun q => q.status.phase))
          = some "Active"
      ∧ ((ProjectReconcile 0 demoProjectWorld).1.project.map (fun q => q.status.vmCount))
          = some 0) :=
  ⟨rfl, project_demo_reconcile 0 demoProjectWorld demoProject rfl rfl rfl
    (List.mem_cons_self _ _) rfl rfl rfl⟩

/-! ### VM reconciler step lemmas (C2, C7, C8, C10) -/

@[simp] lemma updateVMStatusFromVMI_meta (now : Int) (o : Option VMIStatus)
    (vm : VirtualMachine) : (updateVMStatusFromVMI now o vm).meta = vm.meta := by
  cases o <;> rfl

@[simp] lemma updateVMStatusFromVMI_spec (now : Int) (o : Option VMIStatus)
    (vm : VirtualMachine) : (updateVMStatusFromVMI now o vm).spec = vm.spec := by
  cases o <;> rfl

@[simp] lemma updateVMStatus_meta (now : Int) (vm : VirtualMachine) (ph msg : String) :
    (updateVMStatus now vm ph msg).meta = vm.meta := rfl

@[simp] lemma updateVMStatus_spec (now : Int) (vm : VirtualMachine) (ph msg : String) :
    (updateVMStatus now vm ph msg).spec = vm.spec := rfl

lemma lookup_removeAnnot (m : ObjectMeta) (k : String) :
    (removeAnnot m k).annots.lookup k = none := by
  simp only [removeAnnot]
  generalize m.annots = l
  induction l with
  | nil => rfl
  | cons kv rest ih =>
    by_cases h : kv.1 = k
    · simpa [List.filter, h] using ih
    · have hb : (k == kv.1) = false := beq_eq_false_iff_ne.mpr (fun hc => h hc.symm)
      simpa [List.filter, h, List.lookup, hb] using ih

/-- C2: while a VirtualMachine with the finalizer marker and a deletion
timestamp is being finalized, the marker is removed only after the
external KubeVirt VM object is gone (deleted or already absent), and a
failing cleanup returns its error with the marker retained and the store
unchanged — a state with the marker removed but the external object still
present is never produced by a reconcile step. -/
theorem finalizer_removed_only_after_external_deleted (now : Int) (ops : VMOps) (w : VMWorld)
    (vm vm' : VirtualMachine) (kv : KubeVirtVM) (e : StoreError)
    (hvm : w.vm = some vm)
    (hdel : vm.meta.deletionTimestampSet = true)
    (hfin : vmFinalizer ∈ vm.meta.finalizers) :
    ((Reconcile now ops w).1.vm = some vm' → vmFinalizer ∉ vm'.meta.finalizers →
      (Reconcile now ops w).1.kvVM = none)
    ∧ (w.kvVM = some kv → ops.deleteKv = some e →
        (Reconcile now ops w).2.2 = some e ∧ (Reconcile now ops w).1 = w) := by
  cases hkv : w.kvVM with
  | none =>
    cases hup : ops.updateVM with
    | none =>
      have hr : Reconcile now ops w =
          ({ w with vm := some { vm with meta := removeFinalizer vm.meta vmFinalizer } },
           ⟨false, 0⟩, none) := by
        simp [Reconcile, hvm, hdel, hfin, finalizeVM, hkv, hup]
      constructor
      · intro _ _
        rw [hr]
        simpa using hkv
      · intro hcon _
        exact absurd hcon (by simp)
    | some e2 =>
      have hr : Reconcile now ops w = (w, ⟨false, 0⟩, some e2) := by
        simp [Reconcile, hvm, hdel, hfin, finalizeVM, hkv, hup]
      constructor
      · intro hsome hnot
        rw [hr] at hsome
        rw [hvm] at hsome
        simp at hsome
        exact absurd hfin (hsome ▸ hnot)
      · intro hcon _
        exact absurd hcon (by simp)
  | some kv0 =>
    cases hdk : ops.deleteKv with
    | some e0 =>
      have hr : Reconcile now ops w = (w, ⟨false, 0⟩, some e0) := by
        simp [Reconcile, hvm, hdel, hfin, finalizeVM, hkv, hdk]
      constructor
      · intro hsome hnot
        rw [hr] at hsome
        rw [hvm] at hsome
        simp at hsome
        exact absurd hfin (hsome ▸ hnot)
      · intro _ hdk2
        simp at hdk2
        rw [hr, hdk2]
        exact ⟨rfl, rfl⟩
    | none =>
      cases hup : ops.updateVM with
      | none =>
        have hr : Reconcile now ops w =
            ({ w with vm := some { vm with meta := removeFinalizer vm.meta vmFinalizer },
                      kvVM := none }, ⟨false, 0⟩, none) := by
          simp [Reconcile, hvm, hdel, hfin, finalizeVM, hkv, hdk, hup]
        constructor
        · intro _ _
          rw [hr]
        · intro _ hcon
          exact absurd hcon (by simp)
      | some e2 =>
        have hr : Reconcile now ops w = ({ w with kvVM := none }, ⟨false, 0⟩, some e2) := by
          simp [Reconcile, hvm, hdel, hfin, finalizeVM, hkv, hdk, hup]
        constructor
        · intro hsome hnot
          rw [hr] at hsome
          rw [hvm] at hsome
          simp at hsome
          exact absurd hfin (hsome ▸ hnot)
        · intro _ hcon
          exact absurd hcon (by simp)

/-- Witness for C2: deleting VM whose external object exists while the
delete is rejected returns the error and leaves the store unchanged. -/
theorem finalizer_removed_only_after_external_deleted_witness :
    (let vm : VirtualMachine :=
      { meta := { name := "vm1", ns := "default", deletionTimestampSet := true,
                  finalizers := [vmFinalizer], annots := [], generation := 1 }
        spec := { cpus := 1, memory := "1Gi", diskSize := "", os := "ubuntu",
                  osVersion := "", cloudInit := "", sshKeys := [],
                  runStrategy := "", storageClass := "" }
        status := { phase := "", node := "", ipAddress := "", ready := false,
                    conditions := [] } }
     let kv : KubeVirtVM := buildKubeVirtVM vm
     let w : VMWorld := { vm := some vm, kvVM := some kv, kvRunStrategyWrites := [], vmi := none }
     let ops : VMOps := { deleteKv := some (StoreError.other "rejected"), updateVM := none,
                          patchKv := none, updateKv1 := none, updateKv2 := none,
                          statusUpdate := none }
     ((Reconcile 0 ops w).1.vm = some vm → vmFinalizer ∉ vm.meta.finalizers →
        (Reconcile 0 ops w).1.kvVM = none)
      ∧ (w.kvVM = some kv → ops.deleteKv = some (StoreError.other "rejected") →
          (Reconcile 0 ops w).2.2 = some (StoreError.other "rejected")
          ∧ (Reconcile 0 ops w).1 = w)) := by
  exact finalizer_removed_only_after_external_deleted 0 _ _ _ _ _ _ rfl rfl
    (List.mem_cons_self _ _)

/-- C10: a VirtualMachine with the finalizer, no deletion timestamp and
the reboot annotation "true" whose external KubeVirt object is absent
makes `Reconcile` fail with a not-found error, leaving the whole store —
annotation included — unchanged, so the external object is never created
and every retry fails identically. -/
theorem reboot_annotation_missing_external_stuck (now : Int) (ops : VMOps) (w : VMWorld)
    (vm : VirtualMachine) (n : Nat)
    (hvm : w.vm = some vm)
    (hdel : vm.meta.deletionTimestampSet = false)
    (hfin : vmFinalizer ∈ vm.meta.finalizers)
    (hrb : vm.meta.annots.lookup rebootKey = some "true")
    (hkv : w.kvVM = none) :
    Reconcile now ops w = (w, ⟨false, 0⟩, some StoreError.notFound)
    ∧ iterateReconcile now ops n w = w := by
  have hstep : Reconcile now ops w = (w, ⟨false, 0⟩, some StoreError.notFound) := by
    simp [Reconcile, hvm, hdel, hfin, hrb, rebootVM, hkv]
  refine ⟨hstep, ?_⟩
  induction n with
  | zero => rfl
  | succ k ih => simp [iterateReconcile, hstep, ih]

/-- Witness for C10: a concrete stuck VM, iterated three times. -/
theorem reboot_annotation_missing_external_stuck_witness :
    (let vm : VirtualMachine :=
      { meta := { name := "vm1", ns := "default", deletionTimestampSet := false,
                  finalizers := [vmFinalizer], annots := [(rebootKey, "true")], generation := 1 }
        spec := { cpus := 1, memory := "1Gi", diskSize := "", os := "ubuntu",
                  osVersion := "", cloudInit := "", sshKeys := [],
                  runStrategy := "", storageClass := "" }
        status := { phase := "", node := "", ipAddress := "", ready := false,
                    conditions := [] } }
     let w : VMWorld := { vm := some vm, kvVM := none, kvRunStrategyWrites := [], vmi := none }
     Reconcile 0 noFailOps w = (w, ⟨false, 0⟩, some StoreError.notFound)
     ∧ iterateReconcile 0 noFailOps 3 w = w) := by
  exact reboot_annotation_missing_external_stuck 0 noFailOps _ _ 3 rfl rfl
    (List.mem_cons_self _ _) (by decide) rfl

/-! ### C7: error propagation of the VirtualMachine reconciler -/

/-- A plain VirtualMachine on the normal-path (finalizer present, not
deleting, no reboot annotation). -/
def vmC7 : VirtualMachine :=
  { meta := { name := "vm1", ns := "default", deletionTimestampSet := false,
              finalizers := [vmFinalizer], annots := [], generation := 1 }
    spec := { cpus := 1, memory := "1Gi", diskSize := "", os := "ubuntu",
              osVersion := "", cloudInit := "", sshKeys := [],
              runStrategy := "", storageClass := "" }
    status := { phase := "", node := "", ipAddress := "", ready := false, conditions := [] } }

/-- A store holding only `vmC7`. -/
def wC7 : VMWorld := { vm := some vmC7, kvVM := none, kvRunStrategyWrites := [], vmi := none }

/-- An oracle where only the Status persist fails, with a non-conflict
error. -/
def opsC7 : VMOps :=
  { deleteKv := none, updateVM := none, patchKv := none, updateKv1 := none,
    updateKv2 := none, statusUpdate := some (StoreError.other "boom") }

/-- Counterexample to C7 as stated: a non-conflict failure of the
status-projection persist is not returned as an error — the reconciler
returns no error and a fixed 10-second requeue. -/
theorem status_error_swallowed_counterexample :
    opsC7.statusUpdate = some (StoreError.other "boom")
    ∧ ¬ StoreError.other "boom" = StoreError.conflict
    ∧ (Reconcile 0 opsC7 wC7).2.2 = none
    ∧ (Reconcile 0 opsC7 wC7).2.1 = ⟨false, 10⟩ := by
  refine ⟨rfl, by decide, ?_, ?_⟩ <;> rfl

/-- C7 as amended: for every reconcile invocation, a failure of any step
before the status projection is returned as the reconcile error — the
finalize cleanup, the finalizer-removal persist, the finalizer-add
persist, either reboot phase (including a missing external object on
reboot), the reboot-annotation persist, and the external patch, on the
deletion, reboot and normal paths alike; a failure of the
status-projection persist, however, is never returned, conflict or not:
the reconciler swallows it and requeues after a fixed 10-second delay,
on both the reboot and the no-reboot path. -/
theorem step_error_propagation (now : Int) (ops : VMOps) (w : VMWorld)
    (vm : VirtualMachine) (kv : KubeVirtVM) (e : StoreError)
    (hvm : w.vm = some vm) :
    (vm.meta.deletionTimestampSet = true → vmFinalizer ∈ vm.meta.finalizers →
      w.kvVM = some kv → ops.deleteKv = some e → (Reconcile now ops w).2.2 = some e)
    ∧ (vm.meta.deletionTimestampSet = true → vmFinalizer ∈ vm.meta.finalizers →
      w.kvVM = none → ops.updateVM = some e → (Reconcile now ops w).2.2 = some e)
    ∧ (vm.meta.deletionTimestampSet = true → vmFinalizer ∈ vm.meta.finalizers →
      w.kvVM = some kv → ops.deleteKv = none → ops.updateVM = some e →
      (Reconcile now ops w).2.2 = some e)
    ∧ (vm.meta.deletionTimestampSet = false → vmFinalizer ∉ vm.meta.finalizers →
      ops.updateVM = some e → (Reconcile now ops w).2.2 = some e)
    ∧ (vm.meta.deletionTimestampSet = false → vmFinalizer ∈ vm.meta.finalizers →
      vm.meta.annots.lookup rebootKey = some "true" → w.kvVM = none →
      (Reconcile now ops w).2.2 = some StoreError.notFound)
    ∧ (vm.meta.deletionTimestampSet = false → vmFinalizer ∈ vm.meta.finalizers →
      vm.meta.annots.lookup rebootKey = some "true" → w.kvVM = some kv →
      ops.updateKv1 = some e → (Reconcile now ops w).2.2 = some e)
    ∧ (vm.meta.deletionTimestampSet = false → vmFinalizer ∈ vm.meta.finalizers →
      vm.meta.annots.lookup rebootKey = some "true" → w.kvVM = some kv →
      ops.updateKv1 = none → ops.updateKv2 = some e → (Reconcile now ops w).2.2 = some e)
    ∧ (vm.meta.deletionTimestampSet = false → vmFinalizer ∈ vm.meta.finalizers →
      vm.meta.annots.lookup rebootKey = some "true" → w.kvVM = some kv →
      ops.updateKv1 = none → ops.updateKv2 = none → ops.updateVM = some e →
      (Reconcile now ops w).2.2 = some e)
    ∧ (vm.meta.deletionTimestampSet = false → vmFinalizer ∈ vm.meta.finalizers →
      ¬ vm.meta.annots.lookup rebootKey = some "true" → ops.patchKv = some e →
      (Reconcile now ops w).2.2 = some e)
    ∧ (vm.meta.deletionTimestampSet = false → vmFinalizer ∈ vm.meta.finalizers →
      vm.meta.annots.lookup rebootKey = some "true" → w.kvVM = some kv →
      ops.updateKv1 = none → ops.updateKv2 = none → ops.updateVM = none →
      ops.patchKv = some e → (Reconcile now ops w).2.2 = some e)
    ∧ (vm.meta.deletionTimestampSet = false → vmFinalizer ∈ vm.meta.finalizers →
      ¬ vm.meta.annots.lookup rebootKey = some "true" → ops.patchKv = none →
      ops.statusUpdate = some e →
      (Reconcile now ops w).2.2 = none ∧ (Reconcile now ops w).2.1 = ⟨false, 10⟩)
    ∧ (vm.meta.deletionTimestampSet = false → vmFinalizer ∈ vm.meta.finalizers →
      vm.meta.annots.lookup rebootKey = some "true" → w.kvVM = some kv →
      ops.updateKv1 = none → ops.updateKv2 = none → ops.updateVM = none →
      ops.patchKv = none → ops.statusUpdate = some e →
      (Reconcile now ops w).2.2 = none ∧ (Reconcile now ops w).2.1 = ⟨false, 10⟩) := by
  refine ⟨?_, ?_, ?_, ?_, ?_, ?_, ?_, ?_, ?_, ?_, ?_, ?_⟩
  · intro h1 h2 h3 h4
    simp [Reconcile, hvm, h1, h2, finalizeVM, h3, h4]
  · intro h1 h2 h3 h4
    simp [Reconcile, hvm, h1, h2, finalizeVM, h3, h4]
  · intro h1 h2 h3 h4 h5
    simp [Reconcile, hvm, h1, h2, finalizeVM, h3, h4, h5]
  · intro h1 h2 h3
    simp [Reconcile, hvm, h1, h2, h3]
  · intro h1 h2 h3 h4
    simp [Reconcile, hvm, h1, h2, h3, rebootVM, h4]
  · intro h1 h2 h3 h4 h5
    simp [Reconcile, hvm, h1, h2, h3, rebootVM, h4, h5]
  · intro h1 h2 h3 h4 h5 h6
    simp [Reconcile, hvm, h1, h2, h3, rebootVM, h4, h5, h6]
  · intro h1 h2 h3 h4 h5 h6 h7
    simp [Reconcile, hvm, h1, h2, h3, rebootVM, h4, h5, h6, h7]
  · intro h1 h2 h3 h4
    simp [Reconcile, hvm, h1, h2, h3, syncAndStatus, h4]
  · intro h1 h2 h3 h4 h5 h6 h7 h8
    simp [Reconcile, hvm, h1, h2, h3, rebootVM, h4, h5, h6, h7, syncAndStatus, h8]
  · intro h1 h2 h3 h4 h5
    simp [Reconcile, hvm, h1, h2, h3, syncAndStatus, h4, h5]
  · intro h1 h2 h3 h4 h5 h6 h7 h8 h9
    simp [Reconcile, hvm, h1, h2, h3, rebootVM, h4, h5, h6, h7, syncAndStatus, h8, h9]

/-- An oracle where only the external patch fails. -/
def opsC7b : VMOps :=
  { deleteKv := none, updateVM := none, patchKv := some (StoreError.other "pf"),
    updateKv1 := none, updateKv2 := none, statusUpdate := none }

/-- Witness for C7 (amended) at `vmC7`: a failing external patch is
returned as the error, and a failing non-conflict status persist is
swallowed with the fixed 10-second requeue. -/
theorem step_error_propagation_witness :
    wC7.vm = some vmC7
    ∧ (Reconcile 0 opsC7b wC7).2.2 = some (StoreError.other "pf")
    ∧ ((Reconcile 0 opsC7 wC7).2.2 = none ∧ (Reconcile 0 opsC7 wC7).2.1 = ⟨false, 10⟩) := by
  refine ⟨rfl, ?_, ?_⟩
  · exact (step_error_propagation 0 opsC7b wC7 vmC7 (buildKubeVirtVM vmC7)
      (StoreError.other "pf") rfl).2.2.2.2.2.2.2.2.1 rfl
      (List.mem_cons_self _ _) (by decide) rfl
  · exact (step_error_propagation 0 opsC7 wC7 vmC7 (buildKubeVirtVM vmC7)
      (StoreError.other "boom") rfl).2.2.2.2.2.2.2.2.2.2.1 rfl
      (List.mem_cons_self _ _) (by decide) rfl rfl

/-! ### C8: reboot annotation handling -/

/-- C8: with the reboot annotation "true" and the external object
present, a reconcile writes run-strategy "Halted" then "Always" to the
external object; only after both external updates succeed is the
annotation cleared and the resource persisted; if the first update, the
second update, or the annotation persist fails, that error is returned
and the stored resource keeps the annotation. -/
theorem reboot_two_phase (now : Int) (ops : VMOps) (w : VMWorld)
    (vm : VirtualMachine) (kv : KubeVirtVM) (e : StoreError)
    (hvm : w.vm = some vm)
    (hdel : vm.meta.deletionTimestampSet = false)
    (hfin : vmFinalizer ∈ vm.meta.finalizers)
    (hrb : vm.meta.annots.lookup rebootKey = some "true")
    (hkv : w.kvVM = some kv) :
    (ops.updateKv1 = none → ops.updateKv2 = none →
      (Reconcile now ops w).1.kvRunStrategyWrites
        = w.kvRunStrategyWrites ++ ["Halted", "Always"])
    ∧ (ops.updateKv1 = none → ops.updateKv2 = none → ops.updateVM = none →
        ((Reconcile now ops w).1.vm.map (fun x => x.meta.annots.lookup rebootKey))
          = some none)
    ∧ (ops.updateKv1 = some e → Reconcile now ops w = (w, ⟨false, 0⟩, some e))
    ∧ (ops.updateKv1 = none → ops.updateKv2 = some e →
        (Reconcile now ops w).2.2 = some e ∧ (Reconcile now ops w).1.vm = w.vm
        ∧ (Reconcile now ops w).1.kvVM = some { kv with runStrategy := "Halted" })
    ∧ (ops.updateKv1 = none → ops.updateKv2 = none → ops.updateVM = some e →
        (Reconcile now ops w).2.2 = some e ∧ (Reconcile now ops w).1.vm = w.vm) := by
  refine ⟨?_, ?_, ?_, ?_, ?_⟩
  · intro h1 h2
    cases hu : ops.updateVM <;> cases hp : ops.patchKv <;> cases hs : ops.statusUpdate <;>
      simp [Reconcile, hvm, hdel, hfin, hrb, rebootVM, hkv, h1, h2, hu, hp, hs, syncAndStatus]
  · intro h1 h2 h3
    cases hp : ops.patchKv <;> cases hs : ops.statusUpdate <;>
      simp [Reconcile, hvm, hdel, hfin, hrb, rebootVM, hkv, h1, h2, h3, hp, hs, syncAndStatus,
        lookup_removeAnnot]
  · intro h1
    simp [Reconcile, hvm, hdel, hfin, hrb, rebootVM, hkv, h1]
  · intro h1 h2
    simp [Reconcile, hvm, hdel, hfin, hrb, rebootVM, hkv, h1, h2]
  · intro h1 h2 h3
    simp [Reconcile, hvm, hdel, hfin, hrb, rebootVM, hkv, h1, h2, h3]

/-- A VirtualMachine carrying the reboot annotation. -/
def vmC8 : VirtualMachine :=
  { meta := { name := "vm2", ns := "default", deletionTimestampSet := false,
              finalizers := [vmFinalizer], annots := [(rebootKey, "true")], generation := 2 }
    spec := { cpus := 2, memory := "4Gi", diskSize := "", os := "ubuntu",
              osVersion := "22.04", cloudInit := "", sshKeys := [],
              runStrategy := "Always", storageClass := "" }
    status := { phase := "", node := "", ipAddress := "", ready := false, conditions := [] } }

/-- A store holding `vmC8` and its external object. -/
def wC8 : VMWorld :=
  { vm := some vmC8, kvVM := some (buildKubeVirtVM vmC8), kvRunStrategyWrites := [],
    vmi := none }

/-- Witness for C8 at `vmC8` with all store writes succeeding. -/
theorem reboot_two_phase_witness :
    wC8.vm = some vmC8
    ∧ wC8.kvVM = some (buildKubeVirtVM vmC8)
    ∧ ((noFailOps.updateKv1 = none → noFailOps.updateKv2 = none →
          (Reconcile 0 noFailOps wC8).1.kvRunStrategyWrites
            = wC8.kvRunStrategyWrites ++ ["Halted", "Always"])
      ∧ (noFailOps.updateKv1 = none → noFailOps.updateKv2 = none →
          noFailOps.updateVM = none →
          ((Reconcile 0 noFailOps wC8).1.vm.map (fun x => x.meta.annots.lookup rebootKey))
            = some none)
      ∧ (noFailOps.updateKv1 = some (StoreError.other "err") →
          Reconcile 0 noFailOps wC8 = (wC8, ⟨false, 0⟩, some (StoreError.other "err")))
      ∧ (noFailOps.updateKv1 = none → noFailOps.updateKv2 = some (StoreError.other "err") →
          (Reconcile 0 noFailOps wC8).2.2 = some (StoreError.other "err")
          ∧ (Reconcile 0 noFailOps wC8).1.vm = wC8.vm
          ∧ (Reconcile 0 noFailOps wC8).1.kvVM
              = some { buildKubeVirtVM vmC8 with runStrategy := "Halted" })
      ∧ (noFailOps.updateKv1 = none → noFailOps.updateKv2 = none →
          noFailOps.updateVM = some (StoreError.other "err") →
          (Reconcile 0 noFailOps wC8).2.2 = some (StoreError.other "err")
          ∧ (Reconcile 0 noFailOps wC8).1.vm = wC8.vm)) :=
  ⟨rfl, rfl, reboot_two_phase 0 noFailOps wC8 vmC8 (buildKubeVirtVM vmC8)
    (StoreError.other "err") rfl rfl (List.mem_cons_self _ _) (by decide) rfl⟩

/-! ### C1: idempotence of the VirtualMachine reconcile -/

lemma setStatusCondition_idem (t1 t2 : Int) (c : Condition) (l : List Condition) :
    setStatusCondition t2 c (setStatusCondition t1 c l) = setStatusCondition t1 c l := by
  induction l with
  | nil => simp [setStatusCondition]
  | cons c0 rest ih =>
    by_cases h : c0.type = c.type
    · by_cases hs : c0.status = c.status
      · simp [setStatusCondition, h, hs]
      · simp [setStatusCondition, h, hs]
    · simp [setStatusCondition, h, ih]

lemma updateVMStatusFromVMI_idem (t1 t2 : Int) (o : Option VMIStatus) (vm : VirtualMachine) :
    updateVMStatusFromVMI t2 o (updateVMStatusFromVMI t1 o vm)
      = updateVMStatusFromVMI t1 o vm := by
  cases o with
  | none => rfl
  | some v =>
    obtain ⟨vmeta, vspec, vstatus⟩ := vm
    obtain ⟨sph, snode, sip, sready, sconds⟩ := vstatus
    obtain ⟨op, ond, ifs⟩ := v
    cases op <;> cases ond <;>
      rcases ifs with _ | ⟨⟨oip⟩, rest⟩ <;>
      (try cases oip) <;>
      simp [updateVMStatusFromVMI, applyVMIPhase, applyVMINode, applyVMIIp,
        setStatusCondition_idem]

lemma buildKubeVirtVM_congr (vm1 vm2 : VirtualMachine) (hm : vm1.meta = vm2.meta)
    (hs : vm1.spec = vm2.spec) : buildKubeVirtVM vm1 = buildKubeVirtVM vm2 := by
  simp only [buildKubeVirtVM, hm, hs]

/-- C1: on the normal path (finalizer present, not deleting, no reboot
annotation) with all store writes succeeding, the first reconcile applies
the deterministic desired object built from the Spec, and a second
reconcile of the resulting store is a no-op: it returns success and
leaves the external object and the Status byte-for-byte identical. -/
theorem reconcile_idempotent (t1 t2 : Int) (w : VMWorld) (vm : VirtualMachine)
    (hvm : w.vm = some vm)
    (hdel : vm.meta.deletionTimestampSet = false)
    (hfin : vmFinalizer ∈ vm.meta.finalizers)
    (hrb : ¬ vm.meta.annots.lookup rebootKey = some "true") :
    Reconcile t2 noFailOps (Reconcile t1 noFailOps w).1
        = ((Reconcile t1 noFailOps w).1, ⟨false, 0⟩, none)
    ∧ (Reconcile t1 noFailOps w).1.kvVM = some (buildKubeVirtVM vm) := by
  have h1 : (Reconcile t1 noFailOps w).1
      = { w with kvVM := some (buildKubeVirtVM vm)
                 vm := some (updateVMStatusFromVMI t1 w.vmi vm) } := by
    simp [Reconcile, hvm, hdel, hfin, hrb, syncAndStatus, noFailOps]
  have hb : buildKubeVirtVM (updateVMStatusFromVMI t1 w.vmi vm) = buildKubeVirtVM vm :=
    buildKubeVirtVM_congr _ _ (by simp) (by simp)
  have hi : updateVMStatusFromVMI t2 w.vmi (updateVMStatusFromVMI t1 w.vmi vm)
      = updateVMStatusFromVMI t1 w.vmi vm := updateVMStatusFromVMI_idem t1 t2 w.vmi vm
  constructor
  · rw [h1]
    simp [Reconcile, syncAndStatus, noFailOps, hdel, hfin, hrb, hb, hi]
  · rw [h1]

/-- A VirtualMachine with SSH keys in a store whose VMI reports a running
instance. -/
def vmC1 : VirtualMachine :=
  { meta := { name := "vm3", ns := "default", deletionTimestampSet := false,
              finalizers := [vmFinalizer], annots := [], generation := 4 }
    spec := { cpus := 2, memory := "4Gi", diskSize := "", os := "ubuntu",
              osVersion := "22.04", cloudInit := "", sshKeys := ["ssh-rsa AAA"],
              runStrategy := "", storageClass := "" }
    status := { phase := "", node := "", ipAddress := "", ready := false, conditions := [] } }

/-- A store holding `vmC1` and a running VMI. -/
def wC1 : VMWorld :=
  { vm := some vmC1, kvVM := none, kvRunStrategyWrites := []
    vmi := some { phase := some "Running", nodeName := some "n1",
                  interfaces := [{ ipAddress := some "10.0.0.5" }] } }

/-- Witness for C1 at `wC1`, reconciled at two different times. -/
theorem reconcile_idempotent_witness :
    wC1.vm = some vmC1
    ∧ (Reconcile 9 noFailOps (Reconcile 7 noFailOps wC1).1
          = ((Reconcile 7 noFailOps wC1).1, ⟨false, 0⟩, none)
      ∧ (Reconcile 7 noFailOps wC1).1.kvVM = some (buildKubeVirtVM vmC1)) :=
  ⟨rfl, reconcile_idempotent 7 9 wC1 vmC1 rfl rfl (List.mem_cons_self _ _) (by decide)⟩

end LLMCloud
